import Mathlib

/-!
Verification of the trading_agent repository's algorithmic core against its
specification.  The embedding covers the indicator library
(src/src/indicators.py), the risk manager (src/src/risk_manager.py), the
scalping strategy (src/src/scalping_strategy.py) and the backtest simulator
(src/backtest.py).  Prices, quantities and indicator values are modelled as
exact rationals; the pandas NaN/inf float semantics the source relies on are
modelled explicitly with an extended value type.
-/

namespace TradingAgent

/-! ### Indicator library — src/src/indicators.py -/

/-- One recursive update of `series.ewm(span=length, adjust=False).mean()`:
each output is `alpha * value + (1 - alpha) * previous_output`. -/
def ewmGo (alpha : ℚ) : ℚ → List ℚ → List ℚ
  | _, [] => []
  | prev, y :: ys =>
    (alpha * y + (1 - alpha) * prev) :: ewmGo alpha (alpha * y + (1 - alpha) * prev) ys

/-- `calculate_ema(series, length)` (src/src/indicators.py lines 4-6), i.e.
`series.ewm(span=length, adjust=False).mean()`.  With `adjust=False` pandas
seeds the average with the first sample and applies the running recursion
with smoothing factor `alpha = 2 / (length + 1)`; pandas requires
`span >= 1`. -/
def calculate_ema (series : List ℚ) (length : ℕ) : List ℚ :=
  match series with
  | [] => []
  | x :: xs => x :: ewmGo (2 / (length + 1)) x xs

/-- Extended value type for the pandas/numpy float results that RSI relies
on: a value may be NaN (e.g. `0.0 / 0.0`), `+inf` (`x / 0.0` with `x > 0`),
`-inf`, or an ordinary number. -/
inductive PFloat where
  | nan : PFloat
  | pinf : PFloat
  | ninf : PFloat
  | val : ℚ → PFloat
deriving DecidableEq, Repr

/-- `delta.where(delta > 0, 0)` applied to `series.diff()` for the tail of
the series: positive deltas are kept, other deltas become 0. -/
def deltaGainsGo : ℚ → List ℚ → List ℚ
  | _, [] => []
  | prev, y :: ys => (if 0 < y - prev then y - prev else 0) :: deltaGainsGo y ys

/-- `gain` stream of `calculate_rsi` before the rolling mean: the first
delta is NaN, and `NaN > 0` is false, so `where` maps it to 0. -/
def deltaGains : List ℚ → List ℚ
  | [] => []
  | x :: xs => 0 :: deltaGainsGo x xs

/-- `(-delta.where(delta < 0, 0))` for the tail of the series: negative
deltas are kept and negated, other deltas become 0. -/
def deltaLossesGo : ℚ → List ℚ → List ℚ
  | _, [] => []
  | prev, y :: ys => (if y - prev < 0 then -(y - prev) else 0) :: deltaLossesGo y ys

/-- `loss` stream of `calculate_rsi` before the rolling mean; the leading
NaN delta again becomes 0. -/
def deltaLosses : List ℚ → List ℚ
  | [] => []
  | x :: xs => 0 :: deltaLossesGo x xs

/-- `xs.rolling(window=w).mean()`: NaN (`none`) until `w` observations are
available, then the arithmetic mean of the trailing window of length `w`. -/
def rollingMean (w : ℕ) (xs : List ℚ) : List (Option ℚ) :=
  (List.range xs.length).map (fun i =>
    if i + 1 < w then none
    else some (((xs.drop (i + 1 - w)).take w).sum / (w : ℚ)))

/-- Elementwise `gain / loss` with numpy float division semantics: NaN
propagates, `0/0` is NaN, and division of a nonzero number by zero gives a
signed infinity. -/
def pdiv : Option ℚ → Option ℚ → PFloat
  | none, _ => PFloat.nan
  | _, none => PFloat.nan
  | some g, some l =>
    if l = 0 then
      if g = 0 then PFloat.nan
      else if 0 < g then PFloat.pinf
      else PFloat.ninf
    else PFloat.val (g / l)

/-- `100 - (100 / (1 + rs))` with numpy float semantics: NaN propagates;
`rs = +inf` and `rs = -inf` both give 100 (the quotient collapses to 0);
`rs = -1` makes the inner quotient `100 / 0 = +inf`, hence `-inf`. -/
def rsiOfRS : PFloat → PFloat
  | PFloat.nan => PFloat.nan
  | PFloat.pinf => PFloat.val 100
  | PFloat.ninf => PFloat.val 100
  | PFloat.val q => if q = -1 then PFloat.ninf else PFloat.val (100 - 100 / (1 + q))

/-- `calculate_rsi(series, length)` (src/src/indicators.py lines 17-24):
`gain` and `loss` are rolling means of the clipped deltas, `rs = gain/loss`,
and the result is `100 - (100 / (1 + rs))`. -/
def calculate_rsi (series : List ℚ) (length : ℕ) : List PFloat :=
  (List.zipWith pdiv (rollingMean length (deltaGains series))
      (rollingMean length (deltaLosses series))).map rsiOfRS

/-- `series.diff()`: NaN (`none`) at index 0, successive differences after. -/
def diffGo : ℚ → List ℚ → List (Option ℚ)
  | _, [] => []
  | prev, y :: ys => some (y - prev) :: diffGo y ys

/-- `series.diff()` over a whole series. -/
def diffOpt : List ℚ → List (Option ℚ)
  | [] => []
  | x :: xs => none :: diffGo x xs

/-- The `plus_dm` stream of `calculate_adx` (src/src/indicators.py lines
28-31): `plus_dm = high.diff()` followed by `plus_dm[plus_dm < 0] = 0`, i.e.
negative entries are zeroed and nonnegative entries kept. -/
def plus_dm (high : List ℚ) : List (Option ℚ) :=
  (diffOpt high).map (Option.map (fun d => if d < 0 then 0 else d))

/-- The `minus_dm` stream of `calculate_adx` (src/src/indicators.py lines
29-32): `minus_dm = low.diff()` followed by `minus_dm[minus_dm > 0] = 0`,
i.e. positive entries are zeroed and nonpositive entries kept (negative
values are retained; `np.abs` is applied only after the ema smoothing). -/
def minus_dm (low : List ℚ) : List (Option ℚ) :=
  (diffOpt low).map (Option.map (fun d => if 0 < d then 0 else d))

/-! ### Risk manager — src/src/risk_manager.py -/

/-- The account object obtained from the API client; only its `equity`
field is read by the risk manager. -/
structure Account where
  equity : ℚ
deriving DecidableEq, Repr

/-- The `effective_risk_per_trade` computation inside
`calculate_position_size` (src/src/risk_manager.py lines 147-158): the base
`risk_per_trade` unless both ATRs are supplied and `average_atr > 0`, in
which case `risk_per_trade / (current_atr / average_atr)` clamped to
`[0.01, 0.10]`.  When `current_atr = 0` the ratio is `0.0` and the Python
float division raises ZeroDivisionError (`none` here), which the enclosing
`try` turns into a result of 0. -/
def effective_risk_per_trade (risk_per_trade : ℚ) (current_atr average_atr : Option ℚ) :
    Option ℚ :=
  match current_atr, average_atr with
  | some c, some a =>
    if 0 < a then
      if c = 0 then none
      else some (max (1 / 100) (min (10 / 100) (risk_per_trade / (c / a))))
    else some risk_per_trade
  | _, _ => some risk_per_trade

/-- `RiskManager.calculate_position_size` (src/src/risk_manager.py lines
128-188).  Returns 0 when the account is missing, a price is nonpositive,
the stop distance is zero, or the dynamic-risk division raises. Otherwise
`quantity = equity * effective_risk / |entry - stop|`, clipped to
`max_trade_value / entry_price` when `quantity * entry_price` exceeds
`max_trade_value`. -/
def calculate_position_size (account : Option Account)
    (risk_per_trade max_trade_value : ℚ) (entry_price stop_loss_price : ℚ)
    (current_atr average_atr : Option ℚ) : ℚ :=
  match account with
  | none => 0
  | some acct =>
    if entry_price ≤ 0 ∨ stop_loss_price ≤ 0 then 0
    else
      match effective_risk_per_trade risk_per_trade current_atr average_atr with
      | none => 0
      | some eff =>
        let cash_to_risk := acct.equity * eff
        let sl_distance_per_unit := |entry_price - stop_loss_price|
        if sl_distance_per_unit = 0 then 0
        else
          let quantity := cash_to_risk / sl_distance_per_unit
          if quantity * entry_price > max_trade_value then max_trade_value / entry_price
          else quantity

/-- The mutable counters of the risk manager (src/src/risk_manager.py lines
25-28); dates are modelled as integer day ordinals. -/
structure RiskState where
  daily_pnl : ℚ
  consecutive_losses : ℕ
  last_reset_date : ℤ
deriving DecidableEq, Repr

/-- `RiskManager.reset_daily_stats_if_needed` (lines 30-39): counters are
cleared when `today > last_reset_date`. -/
def reset_daily_stats_if_needed (today : ℤ) (s : RiskState) : RiskState :=
  if s.last_reset_date < today then
    { daily_pnl := 0, consecutive_losses := 0, last_reset_date := today }
  else s

/-- `RiskManager.can_open_new_trade` (lines 41-66).  `open_positions` is
`none` when `api.list_positions()` raises (the `except` branch returns
False).  The result pairs the returned Bool with the risk state after the
call (only the daily reset mutates it). -/
def can_open_new_trade (today : ℤ) (open_positions : Option ℕ)
    (max_open_trades consecutive_loss_limit : ℕ)
    (account : Option Account) (daily_loss_limit_pct : ℚ)
    (s : RiskState) : Bool × RiskState :=
  let s1 := reset_daily_stats_if_needed today s
  match open_positions with
  | none => (false, s1)
  | some n =>
    if max_open_trades ≤ n then (false, s1)
    else if consecutive_loss_limit ≤ s1.consecutive_losses then (false, s1)
    else
      match account with
      | some acct =>
        if s1.daily_pnl ≤ -(acct.equity * daily_loss_limit_pct) then (false, s1)
        else (true, s1)
      | none => (true, s1)

/-! ### Scalping strategy — src/src/scalping_strategy.py -/

/-- One row of the scalping strategy's indicator frame; only these three
columns are read by `generate_signal` (the `atr` and `stoch_d` columns are
computed but unused there). -/
structure ScalpRow where
  ema_fast : ℚ
  ema_slow : ℚ
  stoch_k : ℚ
deriving DecidableEq, Repr

/-- The open-position record passed to `generate_signal`; only its `side`
is read. -/
structure TradePosition where
  side : String
deriving DecidableEq, Repr

/-- The scalping-strategy configuration keys read by `generate_signal`. -/
structure ScalpParams where
  stoch_oversold : ℚ
  stoch_overbought : ℚ
deriving DecidableEq, Repr

/-- The top-level functions defined by src/src/indicators.py. -/
def indicators_module_defs : List String :=
  ["calculate_ema", "calculate_atr", "calculate_rsi", "calculate_adx"]

/-- The `ind.calculate_stoch` attribute that
`ScalpingStrategy._calculate_indicators` looks up (line 18):
src/src/indicators.py defines no `calculate_stoch`, so the lookup raises
AttributeError — modelled as an absent (`none`) function value. -/
def lookup_calculate_stoch :
    Option (List ℚ → List ℚ → List ℚ → ℕ → ℕ → ℕ → (List ℚ × List ℚ)) := none

/-- `ScalpingStrategy._calculate_indicators` (lines 10-34): were
`calculate_stoch` present, the frame would combine the two EMA columns with
the %K column; the AttributeError from the missing function is caught by
the `except` branch, which clears the frame (`self.df = pd.DataFrame()`). -/
def scalping_calculate_indicators (high low close : List ℚ)
    (ema_fast_len ema_slow_len stoch_k_len stoch_d_len stoch_smooth_k : ℕ) :
    List ScalpRow :=
  match lookup_calculate_stoch with
  | some f =>
    let ef := calculate_ema close ema_fast_len
    let es := calculate_ema close ema_slow_len
    let sk := (f high low close stoch_k_len stoch_d_len stoch_smooth_k).1
    (ef.zip (es.zip sk)).map (fun x => ⟨x.1, x.2.1, x.2.2⟩)
  | none => []

/-- `ScalpingStrategy.generate_signal` (lines 36-76), evaluated on the
stored indicator frame. -/
def scalping_generate_signal (df : List ScalpRow) (p : ScalpParams)
    (position : Option TradePosition) : String :=
  if df.length < 2 then "HOLD"
  else
    let latest := df.getD (df.length - 1) ⟨0, 0, 0⟩
    let second_latest := df.getD (df.length - 2) ⟨0, 0, 0⟩
    let bearish_crossover :=
      second_latest.ema_fast > second_latest.ema_slow ∧ latest.ema_fast < latest.ema_slow
    let bullish_crossover :=
      second_latest.ema_fast < second_latest.ema_slow ∧ latest.ema_fast > latest.ema_slow
    match position with
    | some pos =>
      if pos.side = "long" ∧ bearish_crossover then "EXIT_LONG"
      else if pos.side = "short" ∧ bullish_crossover then "EXIT_SHORT"
      else "HOLD_POSITION"
    | none =>
      if latest.ema_fast > latest.ema_slow ∧ latest.stoch_k < p.stoch_oversold then "BUY"
      else if latest.ema_fast < latest.ema_slow ∧ latest.stoch_k > p.stoch_overbought then
        "SELL"
      else "HOLD"

/-! ### Backtest simulator — src/backtest.py, `run_backtest` main loop -/

/-- The `active_trade` record built on entry (src/backtest.py lines
126-133); the fields not read by the loop (symbol, dates, pnl) are
omitted. -/
structure ActiveTrade where
  entry_price : ℚ
  quantity : ℚ
  stop_loss : ℚ
  take_profit : ℚ
deriving DecidableEq, Repr

/-- The per-bar portfolio ledger row: `cash`, `position_value` and the
`active_trade` loop variable. -/
structure BTState where
  cash : ℚ
  position_value : ℚ
  active : Option ActiveTrade
deriving DecidableEq, Repr

/-- Per-bar inputs of one loop iteration: the bar's close, and the values
produced by the strategy and risk manager on the rolling window ending at
this bar — `signal = strategy.generate_signal()`,
`atr = strategy.df['atr'].iloc[-1]`, and
`qty = risk_manager.calculate_position_size(...)` (oracles here, so the
simulator facts hold for every strategy and sizing outcome). -/
structure BarInput where
  price : ℚ
  signal : String
  atr : ℚ
  qty : ℚ
deriving DecidableEq, Repr

/-- The stop-loss/take-profit breach test of src/backtest.py line 88. -/
def exitTriggered (t : ActiveTrade) (price : ℚ) : Prop :=
  price ≤ t.stop_loss ∨ t.take_profit ≤ price

instance (t : ActiveTrade) (price : ℚ) : Decidable (exitTriggered t price) :=
  inferInstanceAs (Decidable (_ ∨ _))

/-- Carry-over, mark-to-market and stop/target exit for one bar
(src/backtest.py lines 77-103): on a breach the ledger is credited with
`quantity * exit_price` at the breached level and the trade is cleared. -/
def exitPhase (s : BTState) (b : BarInput) : BTState :=
  match s.active with
  | none => s
  | some t =>
    if exitTriggered t b.price then
      let exit_price := if b.price ≤ t.stop_loss then t.stop_loss else t.take_profit
      { cash := s.cash + t.quantity * exit_price, position_value := 0, active := none }
    else
      { cash := s.cash, position_value := b.price * t.quantity, active := some t }

/-- Entry evaluation for one bar (src/backtest.py lines 105-135), reached
with the post-exit state: on a BUY signal the stop is `entry - 1.5 * atr`,
the target `entry + rr * (entry - stop)`, and the position opens only if
`quantity > 0 and cash > quantity * entry_price`, debiting the notional. -/
def entryPhase (rr : ℚ) (s : BTState) (b : BarInput) : BTState :=
  match s.active with
  | some _ => s
  | none =>
    if b.signal = "BUY" then
      let entry_price := b.price
      let stop_loss_price := entry_price - 3 / 2 * b.atr
      let take_profit_price := entry_price + rr * (entry_price - stop_loss_price)
      if 0 < b.qty ∧ b.qty * entry_price < s.cash then
        { cash := s.cash - b.qty * entry_price,
          position_value := b.qty * entry_price,
          active := some ⟨entry_price, b.qty, stop_loss_price, take_profit_price⟩ }
      else s
    else s

/-- One full iteration of the main backtest loop (lines 75-138): the exit
phase runs first; the entry check `if not active_trade` then sees the
post-exit state. -/
def backtestStep (rr : ℚ) (s : BTState) (b : BarInput) : BTState :=
  entryPhase rr (exitPhase s b) b

/-- The sequence of ledger states after each processed bar. -/
def backtestRun (rr : ℚ) (s : BTState) : List BarInput → List BTState
  | [] => []
  | b :: bs => backtestStep rr s b :: backtestRun rr (backtestStep rr s b) bs

/-- Number of concurrently held positions recorded in the ledger state. -/
def activeCount (s : BTState) : ℕ :=
  match s.active with
  | none => 0
  | some _ => 1

/-- The ledger well-formedness the loop maintains: nonnegative cash, and
any active trade has nonnegative quantity and take-profit (the take-profit
is `entry + rr * 1.5 * atr` at entry, hence nonnegative for nonnegative
prices, ATR and risk/reward ratio). -/
def WFState (s : BTState) : Prop :=
  0 ≤ s.cash ∧ ∀ t, s.active = some t → 0 ≤ t.quantity ∧ 0 ≤ t.take_profit

/-! ### Supporting lemmas -/

lemma ewmGo_length (alpha prev : ℚ) (ys : List ℚ) :
    (ewmGo alpha prev ys).length = ys.length := by
  induction ys generalizing prev with
  | nil => rfl
  | cons y ys ih => simp [ewmGo, ih]

lemma calculate_ema_length (series : List ℚ) (length : ℕ) :
    (calculate_ema series length).length = series.length := by
  cases series with
  | nil => rfl
  | cons x xs => simp [calculate_ema, ewmGo_length]

lemma ewmGo_getD (alpha : ℚ) (ys : List ℚ) :
    ∀ (prev : ℚ) (i : ℕ), i < ys.length →
      (ewmGo alpha prev ys).getD i 0 =
        alpha * ys.getD i 0 +
          (1 - alpha) * (if i = 0 then prev else (ewmGo alpha prev ys).getD (i - 1) 0) := by
  induction ys with
  | nil => intro prev i h; simp at h
  | cons y ys ih =>
    intro prev i h
    cases i with
    | zero => simp [ewmGo]
    | succ j =>
      have hj : j < ys.length := by simpa using h
      have := ih (alpha * y + (1 - alpha) * prev) j hj
      cases j with
      | zero => simpa [ewmGo] using this
      | succ k => simpa [ewmGo] using this

lemma exitPhase_wf {s : BTState} {b : BarInput} (hb : 0 ≤ b.price)
    (h : WFState s) : WFState (exitPhase s b) := by
  obtain ⟨hc, ht⟩ := h
  unfold exitPhase
  cases hs : s.active with
  | none => exact ⟨hc, fun t h' => ht t (hs ▸ h')⟩
  | some t =>
    obtain ⟨hq, htp⟩ := ht t hs
    by_cases hex : exitTriggered t b.price
    · have hxp : 0 ≤ (if b.price ≤ t.stop_loss then t.stop_loss else t.take_profit) := by
        by_cases hsl : b.price ≤ t.stop_loss
        · simpa [hsl] using le_trans hb hsl
        · simpa [hsl] using htp
      simp only [hex, if_pos]
      exact ⟨by simpa using add_nonneg hc (mul_nonneg hq hxp), by simp⟩
    · simp only [hex, if_neg, not_false_iff]
      refine ⟨hc, fun t' h' => ?_⟩
      have ht' : t = t' := by simpa using h'
      exact ht' ▸ ⟨hq, htp⟩

lemma entryPhase_wf {rr : ℚ} {s : BTState} {b : BarInput} (hrr : 0 ≤ rr)
    (hp : 0 ≤ b.price) (ha : 0 ≤ b.atr) (h : WFState s) :
    WFState (entryPhase rr s b) := by
  obtain ⟨hc, ht⟩ := h
  unfold entryPhase
  cases hs : s.active with
  | some t => exact ⟨hc, fun t' h' => ht t' (hs ▸ h')⟩
  | none =>
    by_cases hsig : b.signal = "BUY"
    · simp only [hsig, if_pos]
      by_cases hcond : 0 < b.qty ∧ b.qty * b.price < s.cash
      · simp only [hcond, if_pos]
        obtain ⟨hq, hover⟩ := hcond
        refine ⟨by simpa using le_of_lt (by linarith), fun t' h' => ?_⟩
        have ht' : t' = ⟨b.price, b.qty, b.price - 3 / 2 * b.atr,
            b.price + rr * (b.price - (b.price - 3 / 2 * b.atr))⟩ := by
          simpa using h'.symm
        subst ht'
        refine ⟨le_of_lt hq, ?_⟩
        have : 0 ≤ rr * (3 / 2 * b.atr) := mul_nonneg hrr (by linarith)
        simp only []
        nlinarith
      · simp only [hcond, if_neg, not_false_iff]
        exact ⟨hc, fun t' h' => by rw [hs] at h'; cases h'⟩
    · simp only [hsig, if_neg, not_false_iff]
      exact ⟨hc, fun t' h' => by rw [hs] at h'; cases h'⟩

lemma backtestStep_wf {rr : ℚ} {s : BTState} {b : BarInput} (hrr : 0 ≤ rr)
    (hp : 0 ≤ b.price) (ha : 0 ≤ b.atr) (h : WFState s) :
    WFState (backtestStep rr s b) :=
  entryPhase_wf hrr hp ha (exitPhase_wf hp h)

lemma backtestRun_wf {rr : ℚ} (hrr : 0 ≤ rr) :
    ∀ (bars : List BarInput) (s0 : BTState), WFState s0 →
      (∀ b ∈ bars, 0 ≤ b.price ∧ 0 ≤ b.atr) →
      ∀ s ∈ backtestRun rr s0 bars, WFState s := by
  intro bars
  induction bars with
  | nil => intro s0 _ _ s hs; simp [backtestRun] at hs
  | cons b bs ih =>
    intro s0 h0 hb s hs
    have hbp := hb b (List.mem_cons_self b bs)
    have hstep : WFState (backtestStep rr s0 b) :=
      backtestStep_wf hrr hbp.1 hbp.2 h0
    simp only [backtestRun, List.mem_cons] at hs
    cases hs with
    | inl h => exact h ▸ hstep
    | inr h =>
      exact ih (backtestStep rr s0 b) hstep
        (fun b' hb' => hb b' (List.mem_cons_of_mem b hb')) s h

lemma exitPhase_flat {s : BTState} {b : BarInput} (h : s.active = none) :
    exitPhase s b = s := by
  unfold exitPhase
  rw [h]

lemma entryPhase_rejected {rr : ℚ} {s : BTState} {b : BarInput}
    (h : s.active = none) (hover : ¬ b.qty * b.price < s.cash) :
    entryPhase rr s b = s := by
  unfold entryPhase
  rw [h]
  by_cases hsig : b.signal = "BUY"
  · have hnc : ¬ (0 < b.qty ∧ b.qty * b.price < s.cash) := fun hcond => hover hcond.2
    simp [hsig, hnc]
  · simp [hsig]

lemma exitPhase_some {s : BTState} {b : BarInput} {t : ActiveTrade}
    (h : s.active = some t) (hno : ¬ exitTriggered t b.price) :
    exitPhase s b =
      { cash := s.cash, position_value := b.price * t.quantity, active := some t } := by
  unfold exitPhase
  cases hsa : s.active with
  | none => rw [hsa] at h; cases h
  | some t' =>
    rw [hsa] at h
    obtain rfl := Option.some.inj h
    simp [hno]

lemma effective_risk_nonneg {risk : ℚ} {ca aa : Option ℚ} {er : ℚ}
    (hr : 0 ≤ risk) (h : effective_risk_per_trade risk ca aa = some er) : 0 ≤ er := by
  cases ca with
  | none =>
    simp [effective_risk_per_trade] at h
    exact h ▸ hr
  | some c =>
    cases aa with
    | none =>
      simp [effective_risk_per_trade] at h
      exact h ▸ hr
    | some a =>
      simp only [effective_risk_per_trade] at h
      by_cases ha : 0 < a
      · rw [if_pos ha] at h
        by_cases hc : c = 0
        · rw [if_pos hc] at h; cases h
        · rw [if_neg hc] at h
          have he := Option.some.inj h
          rw [← he]
          have hlb : (1 : ℚ) / 100 ≤ max (1 / 100) (min (10 / 100) (risk / (c / a))) :=
            le_max_left _ _
          linarith
      · rw [if_neg ha] at h
        exact (Option.some.inj h) ▸ hr

lemma deltaGainsGo_const (c : ℚ) (m : ℕ) :
    deltaGainsGo c (List.replicate m c) = List.replicate m 0 := by
  induction m with
  | zero => rfl
  | succ k ih => simp [List.replicate_succ, deltaGainsGo, ih]

lemma deltaGains_const (c : ℚ) (n : ℕ) :
    deltaGains (List.replicate n c) = List.replicate n 0 := by
  cases n with
  | zero => rfl
  | succ k => simp [List.replicate_succ, deltaGains, deltaGainsGo_const]

lemma deltaLossesGo_const (c : ℚ) (m : ℕ) :
    deltaLossesGo c (List.replicate m c) = List.replicate m 0 := by
  induction m with
  | zero => rfl
  | succ k ih => simp [List.replicate_succ, deltaLossesGo, ih]

lemma deltaLosses_const (c : ℚ) (n : ℕ) :
    deltaLosses (List.replicate n c) = List.replicate n 0 := by
  cases n with
  | zero => rfl
  | succ k => simp [List.replicate_succ, deltaLosses, deltaLossesGo_const]

lemma rollingMean_replicate_zero (w n : ℕ) :
    rollingMean w (List.replicate n (0 : ℚ)) =
      (List.range n).map (fun i => if i + 1 < w then none else some 0) := by
  unfold rollingMean
  simp

lemma rsi_replicate_nan (c : ℚ) (n w i : ℕ) (hi : i < n) (hwi : w ≤ i + 1) :
    (calculate_rsi (List.replicate n c) w).getD i (PFloat.val 0) = PFloat.nan := by
  unfold calculate_rsi
  rw [deltaGains_const, deltaLosses_const, rollingMean_replicate_zero]
  have hlen :
      ((List.zipWith pdiv
          ((List.range n).map (fun i => if i + 1 < w then none else some (0 : ℚ)))
          ((List.range n).map (fun i => if i + 1 < w then none else some (0 : ℚ)))).map
        rsiOfRS).length = n := by
    simp
  rw [List.getD_eq_getElem _ _ (by rw [hlen]; exact hi)]
  rw [List.getElem_map, List.getElem_zipWith]
  simp only [List.getElem_map, List.getElem_range]
  rw [if_neg (not_lt.2 hwi)]
  simp [pdiv, rsiOfRS]

/-! ### Claim theorems -/

/-- C6: for every non-empty series and every length L (pandas accepts
`span = length >= 1`), `calculate_ema` satisfies the reference recursion:
`ema[0] = series[0]`, and for every index `i >= 1`,
`ema[i] = alpha * series[i] + (1 - alpha) * ema[i-1]` with
`alpha = 2 / (L + 1)` — a single running recursive update with no
adjust-style renormalization. -/
theorem ema_recursion (series : List ℚ) (length : ℕ) (hL : 1 ≤ length)
    (i : ℕ) (h1 : 1 ≤ i) (hi : i < series.length) :
    (calculate_ema series length).length = series.length ∧
    (calculate_ema series length).getD 0 0 = series.getD 0 0 ∧
    (calculate_ema series length).getD i 0 =
      2 / ((length : ℚ) + 1) * series.getD i 0 +
        (1 - 2 / ((length : ℚ) + 1)) * (calculate_ema series length).getD (i - 1) 0 := by
  refine ⟨calculate_ema_length series length, ?_, ?_⟩
  · cases series with
    | nil => rfl
    | cons x xs => simp [calculate_ema]
  · cases series with
    | nil => simp at hi
    | cons x xs =>
      cases i with
      | zero => omega
      | succ j =>
        have hj : j < xs.length := by simpa using hi
        have key := ewmGo_getD (2 / ((length : ℚ) + 1)) xs x j hj
        cases j with
        | zero => simpa [calculate_ema] using key
        | succ k => simpa [calculate_ema] using key

/-- Witness for ema_recursion: series [1, 2, 3], length 2, index 1. -/
theorem ema_recursion_witness :
    (calculate_ema [1, 2, 3] 2).length = ([1, 2, 3] : List ℚ).length ∧
    (calculate_ema [1, 2, 3] 2).getD 0 0 = ([1, 2, 3] : List ℚ).getD 0 0 ∧
    (calculate_ema [1, 2, 3] 2).getD 1 0 =
      2 / ((2 : ℕ) + 1 : ℚ) * ([1, 2, 3] : List ℚ).getD 1 0 +
        (1 - 2 / ((2 : ℕ) + 1 : ℚ)) * (calculate_ema [1, 2, 3] 2).getD (1 - 1) 0 :=
  ema_recursion [1, 2, 3] 2 (by norm_num) 1 (by norm_num) (by norm_num)

/-- C4 counterexample: on the flat 20-bar series at price 100,
`calculate_rsi` with length 14 produces NaN past warm-up (both rolling
averages are 0, and `0/0` is NaN), not the saturating value 100 the claim
asserts. -/
theorem rsi_flat_counterexample :
    (calculate_rsi (List.replicate 20 (100 : ℚ)) 14).getD 19 (PFloat.val 0) = PFloat.nan ∧
    PFloat.nan ≠ PFloat.val 100 :=
  ⟨rsi_replicate_nan 100 20 14 19 (by norm_num) (by norm_num), by simp⟩

/-- C4 amended: for the flat price series (close = 100 for 20 bars),
`calculate_rsi` returns NaN at every past-warm-up index — a defined,
non-raising degradation that downstream `dropna` removes — rather than 100;
RSI saturates at 100 only when the average gain is positive while the
average loss is 0 (then `rs = +inf` and `100 - 100/(1+rs) = 100`). -/
theorem rsi_flat_amended (i : ℕ) (h13 : 13 ≤ i) (h19 : i ≤ 19)
    (g : ℚ) (hg : 0 < g) :
    (calculate_rsi (List.replicate 20 (100 : ℚ)) 14).getD i (PFloat.val 0) = PFloat.nan ∧
    rsiOfRS (pdiv (some g) (some 0)) = PFloat.val 100 := by
  constructor
  · exact rsi_replicate_nan 100 20 14 i (by omega) (by omega)
  · have hne : g ≠ 0 := ne_of_gt hg
    simp [pdiv, rsiOfRS, hne, hg]

/-- Witness for rsi_flat_amended at index 13 with gain 1. -/
theorem rsi_flat_amended_witness :
    (calculate_rsi (List.replicate 20 (100 : ℚ)) 14).getD 13 (PFloat.val 0) = PFloat.nan ∧
    rsiOfRS (pdiv (some 1) (some 0)) = PFloat.val 100 :=
  rsi_flat_amended 13 (by norm_num) (by norm_num) 1 (by norm_num)

/-- C5 counterexample: with high = [10, 12] and low = [10, 7], both raw
directional deltas at index 1 are positive (high rises by 2, low falls
by 3), yet the streams fed to the ema are +DM = 2 and -DM = -3: the -DM
stream is not clipped to >= 0, and neither entry is zeroed, so the streams
are not mutually exclusive as the claim asserts. -/
theorem adx_dm_counterexample :
    (plus_dm [10, 12]).getD 1 none = some 2 ∧
    (minus_dm [10, 7]).getD 1 none = some (-3) ∧
    ¬ (0 ≤ (-3 : ℚ)) ∧ (2 : ℚ) ≠ 0 ∧ (-3 : ℚ) ≠ 0 := by
  refine ⟨?_, ?_, by norm_num, by norm_num, by norm_num⟩
  · norm_num [plus_dm, diffOpt, diffGo]
  · norm_num [minus_dm, diffOpt, diffGo]

/-- C5 amended: the +DM stream fed into the ema smoothing is clipped
to >= 0, while the -DM stream is clipped to <= 0 (negative entries are
retained and `np.abs` is applied only after smoothing); no mutual-exclusivity
zeroing occurs, so on a bar where the high rises and the low falls both
streams are nonzero. -/
theorem adx_dm_amended (high low : List ℚ)
    (o : Option ℚ) (ho : o ∈ plus_dm high) (d : ℚ) (hd : o = some d)
    (o2 : Option ℚ) (ho2 : o2 ∈ minus_dm low) (d2 : ℚ) (hd2 : o2 = some d2) :
    0 ≤ d ∧ d2 ≤ 0 := by
  constructor
  · subst hd
    rcases List.mem_map.1 ho with ⟨a, _, hmap⟩
    cases a with
    | none => simp at hmap
    | some x =>
      have hx : (if x < 0 then 0 else x) = d := by simpa using hmap
      rcases lt_or_le x 0 with h | h
      · rw [← hx, if_pos h]
      · rw [← hx, if_neg (not_lt.2 h)]; exact h
  · subst hd2
    rcases List.mem_map.1 ho2 with ⟨a, _, hmap⟩
    cases a with
    | none => simp at hmap
    | some x =>
      have hx : (if 0 < x then 0 else x) = d2 := by simpa using hmap
      rcases lt_or_le 0 x with h | h
      · rw [← hx, if_pos h]
      · rw [← hx, if_neg (not_lt.2 h)]; exact h

/-- Witness for adx_dm_amended on high = [10, 12], low = [10, 7]. -/
theorem adx_dm_amended_witness :
    some 2 ∈ plus_dm [10, 12] ∧ some (-3) ∈ minus_dm [10, 7] ∧
    ((0 : ℚ) ≤ 2 ∧ (-3 : ℚ) ≤ 0) :=
  ⟨by norm_num [plus_dm, diffOpt, diffGo], by norm_num [minus_dm, diffOpt, diffGo],
    adx_dm_amended [10, 12] [10, 7] (some 2)
      (by norm_num [plus_dm, diffOpt, diffGo]) 2 rfl
      (some (-3)) (by norm_num [minus_dm, diffOpt, diffGo]) (-3) rfl⟩

/-- C2: for all valid inputs (positive entry and stop prices, an equity
figure available, nonzero stop distance, and a defined effective risk
fraction), `calculate_position_size` returns
`equity * effective_risk / |entry - stop|` clipped to
`max_trade_value / entry_price` exactly when the notional exceeds
`max_trade_value`; hence the returned quantity times the entry price never
exceeds `max_trade_value` (exactly, in rational arithmetic).  In particular
entry 25000, stop 24500, equity 100000, risk 0.02 with no ATR adjustment
gives quantity 4, and with `max_trade_value = 500` it clips to 0.02. -/
theorem position_size_cap (equity risk max_trade entry stop er : ℚ)
    (ca aa : Option ℚ)
    (hentry : 0 < entry) (hstop : 0 < stop) (hdist : entry ≠ stop)
    (heff : effective_risk_per_trade risk ca aa = some er) :
    calculate_position_size (some ⟨equity⟩) risk max_trade entry stop ca aa =
      (if equity * er / |entry - stop| * entry > max_trade then max_trade / entry
       else equity * er / |entry - stop|) ∧
    calculate_position_size (some ⟨equity⟩) risk max_trade entry stop ca aa * entry ≤
      max_trade ∧
    calculate_position_size (some ⟨100000⟩) (2 / 100) 100000 25000 24500 none none = 4 ∧
    calculate_position_size (some ⟨100000⟩) (2 / 100) 500 25000 24500 none none = 1 / 50 := by
  have hno : ¬ (entry ≤ 0 ∨ stop ≤ 0) := by push_neg; exact ⟨hentry, hstop⟩
  have hsl : ¬ |entry - stop| = 0 := by
    simpa [abs_eq_zero, sub_eq_zero] using hdist
  have hmain : calculate_position_size (some ⟨equity⟩) risk max_trade entry stop ca aa =
      (if equity * er / |entry - stop| * entry > max_trade then max_trade / entry
       else equity * er / |entry - stop|) := by
    simp [calculate_position_size, hno, heff, hsl]
  refine ⟨hmain, ?_, ?_, ?_⟩
  · rw [hmain]
    split
    · rw [div_mul_cancel₀ _ (ne_of_gt hentry)]
    · next h => exact le_of_not_lt h
  · norm_num [calculate_position_size, effective_risk_per_trade]
  · norm_num [calculate_position_size, effective_risk_per_trade]

/-- Witness for position_size_cap at the claim's scenario inputs. -/
theorem position_size_cap_witness :
    calculate_position_size (some ⟨100000⟩) (2 / 100) 100000 25000 24500 none none =
      (if (100000 : ℚ) * (2 / 100) / |(25000 : ℚ) - 24500| * 25000 > 100000
       then (100000 : ℚ) / 25000
       else (100000 : ℚ) * (2 / 100) / |(25000 : ℚ) - 24500|) ∧
    calculate_position_size (some ⟨100000⟩) (2 / 100) 100000 25000 24500 none none * 25000 ≤
      100000 ∧
    calculate_position_size (some ⟨100000⟩) (2 / 100) 100000 25000 24500 none none = 4 ∧
    calculate_position_size (some ⟨100000⟩) (2 / 100) 500 25000 24500 none none = 1 / 50 :=
  position_size_cap 100000 (2 / 100) 100000 25000 24500 (2 / 100) none none
    (by norm_num) (by norm_num) (by norm_num) rfl

/-- C7 counterexample: with a negative account equity (equity = -1000,
risk 0.01, max 500, entry 100, stop 90, no ATRs) the code returns the
negative quantity -1, refuting the claim that the returned quantity is
never negative for every input. -/
theorem position_size_negative_counterexample :
    calculate_position_size (some ⟨-1000⟩) (1 / 100) 500 100 90 none none = -1 ∧
    ¬ (0 ≤ calculate_position_size (some ⟨-1000⟩) (1 / 100) 500 100 90 none none) := by
  norm_num [calculate_position_size, effective_risk_per_trade]

/-- C7 amended: `calculate_position_size` returns 0 whenever the account is
missing, `entry_price <= 0`, `stop_loss_price <= 0`, or the stop distance is
zero; and the returned quantity is never negative provided the account
equity, `risk_per_trade` and `max_trade_value` are nonnegative (with a
negative equity or base risk fraction the sizing formula itself goes
negative). -/
theorem position_size_zero_and_nonneg
    (risk max_trade entry stop : ℚ) (ca aa : Option ℚ)
    (account2 : Option Account) (e2 s2 : ℚ)
    (h2 : e2 ≤ 0 ∨ s2 ≤ 0 ∨ |e2 - s2| = 0)
    (equity3 risk3 max3 e3 s3 : ℚ) (ca3 aa3 : Option ℚ)
    (heq3 : 0 ≤ equity3) (hr3 : 0 ≤ risk3) (hm3 : 0 ≤ max3) :
    calculate_position_size none risk max_trade entry stop ca aa = 0 ∧
    calculate_position_size account2 risk max_trade e2 s2 ca aa = 0 ∧
    0 ≤ calculate_position_size (some ⟨equity3⟩) risk3 max3 e3 s3 ca3 aa3 := by
  refine ⟨rfl, ?_, ?_⟩
  · cases account2 with
    | none => rfl
    | some acct =>
      by_cases hps : e2 ≤ 0 ∨ s2 ≤ 0
      · simp [calculate_position_size, hps]
      · have habs : |e2 - s2| = 0 := by
          rcases h2 with h | h | h
          · exact absurd (Or.inl h) hps
          · exact absurd (Or.inr h) hps
          · exact h
        cases heff : effective_risk_per_trade risk ca aa with
        | none => simp [calculate_position_size, hps, heff]
        | some er => simp [calculate_position_size, hps, heff, habs]
  · by_cases hps : e3 ≤ 0 ∨ s3 ≤ 0
    · simp [calculate_position_size, hps]
    · cases heff : effective_risk_per_trade risk3 ca3 aa3 with
      | none => simp [calculate_position_size, hps, heff]
      | some er =>
        have her : 0 ≤ er := effective_risk_nonneg hr3 heff
        by_cases habs : |e3 - s3| = 0
        · simp [calculate_position_size, hps, heff, habs]
        · have he3 : 0 < e3 := by push_neg at hps; exact hps.1
          have hq : 0 ≤ equity3 * er / |e3 - s3| :=
            div_nonneg (mul_nonneg heq3 her) (abs_nonneg _)
          simp only [calculate_position_size, hps, heff, habs, if_neg, if_false,
            not_false_iff]
          split
          · exact div_nonneg hm3 (le_of_lt he3)
          · exact hq

/-- Witness for position_size_zero_and_nonneg at concrete inputs. -/
theorem position_size_zero_and_nonneg_witness :
    calculate_position_size none (1 / 100) 500 100 90 none none = 0 ∧
    calculate_position_size (some ⟨1000⟩) (1 / 100) 500 100 100 none none = 0 ∧
    0 ≤ calculate_position_size (some ⟨1000⟩) (1 / 100) 500 100 90 none none :=
  position_size_zero_and_nonneg (1 / 100) 500 100 90 none none
    (some ⟨1000⟩) 100 100 (by norm_num)
    1000 (1 / 100) 500 100 90 none none (by norm_num) (by norm_num) (by norm_num)

/-- C8: when the wall-clock date has not advanced past `last_reset_date`
and `consecutive_losses >= consecutive_loss_limit`, `can_open_new_trade`
returns false and leaves the risk state unchanged, so every further call
before a date advance also returns false; when the open-position query
raises (`none`), it returns false as a fail-safe; and a date advance resets
the consecutive-loss counter to 0. -/
theorem risk_circuit_breaker
    (today : ℤ) (open_positions : Option ℕ) (max_open loss_limit : ℕ)
    (account : Option Account) (pct : ℚ) (s : RiskState)
    (hday : ¬ s.last_reset_date < today)
    (hloss : loss_limit ≤ s.consecutive_losses)
    (today2 : ℤ) (max2 limit2 : ℕ) (acc2 : Option Account) (pct2 : ℚ) (s2 : RiskState)
    (today3 : ℤ) (s3 : RiskState) (hadv : s3.last_reset_date < today3) :
    (can_open_new_trade today open_positions max_open loss_limit account pct s).1 =
      false ∧
    (can_open_new_trade today open_positions max_open loss_limit account pct s).2 = s ∧
    (can_open_new_trade today2 none max2 limit2 acc2 pct2 s2).1 = false ∧
    (reset_daily_stats_if_needed today3 s3).consecutive_losses = 0 := by
  have hreset : reset_daily_stats_if_needed today s = s := by
    unfold reset_daily_stats_if_needed
    rw [if_neg hday]
  have hpair : can_open_new_trade today open_positions max_open loss_limit account pct s =
      (false, s) := by
    unfold can_open_new_trade
    cases open_positions with
    | none => simp [hreset]
    | some n =>
      by_cases hn : max_open ≤ n
      · simp [hreset, hn]
      · simp [hreset, hn, hloss]
  refine ⟨by rw [hpair], by rw [hpair], rfl, ?_⟩
  unfold reset_daily_stats_if_needed
  rw [if_pos hadv]

/-- Witness for risk_circuit_breaker: three consecutive losses with limit 3
on the same day, a failing position query, and a next-day reset. -/
theorem risk_circuit_breaker_witness :
    (can_open_new_trade 5 (some 0) 3 3 (some ⟨1000⟩) (3 / 100) ⟨0, 3, 5⟩).1 = false ∧
    (can_open_new_trade 5 (some 0) 3 3 (some ⟨1000⟩) (3 / 100) ⟨0, 3, 5⟩).2 =
      (⟨0, 3, 5⟩ : RiskState) ∧
    (can_open_new_trade 7 none 3 3 (some ⟨1000⟩) (3 / 100) ⟨0, 0, 7⟩).1 = false ∧
    (reset_daily_stats_if_needed 6 ⟨-10, 3, 5⟩).consecutive_losses = 0 :=
  risk_circuit_breaker 5 (some 0) 3 3 (some ⟨1000⟩) (3 / 100) ⟨0, 3, 5⟩
    (by norm_num) (by norm_num) 7 3 3 (some ⟨1000⟩) (3 / 100) ⟨0, 0, 7⟩
    6 ⟨-10, 3, 5⟩ (by norm_num)

/-- C1: for every backtest run (flat start, nonnegative initial cash and
risk/reward ratio, bars with nonnegative closes and ATR values — the data
model's bar invariants), the ledger cash is nonnegative after every
processed bar; and an entry whose notional `quantity * entry_price` exceeds
the available cash is rejected with the ledger left unchanged — never
clipped to the available cash. -/
theorem backtest_cash_nonneg (rr : ℚ) (s0 : BTState) (bars : List BarInput)
    (hrr : 0 ≤ rr) (hcash : 0 ≤ s0.cash) (hflat0 : s0.active = none)
    (hbars : ∀ b ∈ bars, 0 ≤ b.price ∧ 0 ≤ b.atr)
    (s : BTState) (hs : s ∈ backtestRun rr s0 bars)
    (sr : BTState) (br : BarInput) (hfr : sr.active = none)
    (hover : sr.cash < br.qty * br.price) :
    0 ≤ s.cash ∧ backtestStep rr sr br = sr := by
  constructor
  · have hwf0 : WFState s0 := ⟨hcash, fun t ht => by rw [hflat0] at ht; cases ht⟩
    exact (backtestRun_wf hrr bars s0 hwf0 hbars s hs).1
  · unfold backtestStep
    rw [exitPhase_flat hfr]
    exact entryPhase_rejected hfr (not_lt.2 (le_of_lt hover))

/-- Witness for backtest_cash_nonneg: a one-bar run that opens a trade, and
a rejected entry whose notional 500 exceeds the cash 100. -/
theorem backtest_cash_nonneg_witness :
    0 ≤ (BTState.mk 9500 500 (some ⟨100, 5, 97, 109⟩)).cash ∧
    backtestStep 3 ⟨100, 0, none⟩ ⟨100, "BUY", 2, 5⟩ = ⟨100, 0, none⟩ :=
  backtest_cash_nonneg 3 ⟨10000, 0, none⟩ [⟨100, "BUY", 2, 5⟩]
    (by norm_num) (by norm_num) rfl
    (by intro b hb
        simp only [List.mem_singleton] at hb
        subst hb
        exact ⟨by norm_num, by norm_num⟩)
    ⟨9500, 500, some ⟨100, 5, 97, 109⟩⟩
    (by norm_num [backtestRun, backtestStep, entryPhase, exitPhase])
    ⟨100, 0, none⟩ ⟨100, "BUY", 2, 5⟩ rfl (by norm_num)

/-- C9: along every backtest run the simulator holds at most one position
at any time, and on a bar where the active trade triggers no stop/target
exit the position is carried unchanged — a new entry can occur only from
the FLAT state (the state machine is strictly FLAT to IN_POSITION and
back). -/
theorem backtest_single_position (rr : ℚ) (s0 : BTState) (bars : List BarInput)
    (s : BTState) (hs : s ∈ backtestRun rr s0 bars)
    (sh : BTState) (bh : BarInput) (t : ActiveTrade)
    (hact : sh.active = some t) (hnoexit : ¬ exitTriggered t bh.price) :
    activeCount s ≤ 1 ∧ (backtestStep rr sh bh).active = some t := by
  constructor
  · unfold activeCount
    cases s.active <;> simp
  · unfold backtestStep
    rw [exitPhase_some hact hnoexit]
    rfl

/-- Witness for backtest_single_position on a one-bar run and a held
position whose stop 97 and target 109 are not breached at price 100. -/
theorem backtest_single_position_witness :
    activeCount ⟨9500, 500, some ⟨100, 5, 97, 109⟩⟩ ≤ 1 ∧
    (backtestStep 3 ⟨9500, 500, some ⟨100, 5, 97, 109⟩⟩ ⟨100, "HOLD", 2, 0⟩).active =
      some ⟨100, 5, 97, 109⟩ :=
  backtest_single_position 3 ⟨10000, 0, none⟩ [⟨100, "BUY", 2, 5⟩]
    ⟨9500, 500, some ⟨100, 5, 97, 109⟩⟩
    (by norm_num [backtestRun, backtestStep, entryPhase, exitPhase])
    ⟨9500, 500, some ⟨100, 5, 97, 109⟩⟩ ⟨100, "HOLD", 2, 0⟩ ⟨100, 5, 97, 109⟩ rfl
    (by norm_num [exitTriggered])

/-- C10: the simulator opens a position only when the available cash is
strictly greater than the notional: when `quantity * entry_price` exactly
equals the cash, the entry is rejected and the ledger is unchanged on that
bar; conversely, whenever a bar's step opens a position from the FLAT
state, the pre-entry cash strictly exceeds the notional. -/
theorem backtest_entry_strict (rr : ℚ) (s : BTState) (b : BarInput)
    (hflat : s.active = none) (heq : b.qty * b.price = s.cash)
    (s2 : BTState) (b2 : BarInput) (hflat2 : s2.active = none)
    (hopen : ((backtestStep rr s2 b2).active).isSome = true) :
    backtestStep rr s b = s ∧ b2.qty * b2.price < s2.cash := by
  constructor
  · unfold backtestStep
    rw [exitPhase_flat hflat]
    refine entryPhase_rejected hflat ?_
    intro hlt
    rw [heq] at hlt
    exact lt_irrefl _ hlt
  · by_contra hnot
    have hstep : backtestStep rr s2 b2 = s2 := by
      unfold backtestStep
      rw [exitPhase_flat hflat2]
      exact entryPhase_rejected hflat2 hnot
    rw [hstep, hflat2] at hopen
    cases hopen

/-- Witness for backtest_entry_strict: notional 500 equal to cash 500 is
rejected; a bar that does open a position has cash 10000 > notional 500. -/
theorem backtest_entry_strict_witness :
    backtestStep 3 ⟨500, 0, none⟩ ⟨100, "BUY", 2, 5⟩ = ⟨500, 0, none⟩ ∧
    (5 : ℚ) * 100 < 10000 :=
  backtest_entry_strict 3 ⟨500, 0, none⟩ ⟨100, "BUY", 2, 5⟩ rfl (by norm_num)
    ⟨10000, 0, none⟩ ⟨100, "BUY", 2, 5⟩ rfl
    (by norm_num [backtestStep, entryPhase, exitPhase])

/-- C3 (code bug): src/src/indicators.py defines no `calculate_stoch`, so
`ScalpingStrategy._calculate_indicators` always raises AttributeError and
clears the frame, and `generate_signal` returns HOLD for every input —
including the claim's two-bar bullish-crossover, oversold scenario, where
the specified behaviour is BUY. -/
theorem scalping_buy_unreachable :
    lookup_calculate_stoch.isNone = true ∧
    "calculate_stoch" ∉ indicators_module_defs ∧
    scalping_generate_signal
      (scalping_calculate_indicators [101, 102] [99, 100] [100, 101] 2 5 14 3 3)
      ⟨20, 80⟩ none = "HOLD" ∧
    "HOLD" ≠ "BUY" := by
  refine ⟨rfl, by decide, rfl, by decide⟩

end TradingAgent
